import Mathlib

/-!
Verification of the jQuery Google Maps plugin (src/assets/vendor/mapify/jquery.mapify.js)
against its natural-language specification.

The JavaScript source is shallowly embedded below.  Numbers (latitude,
longitude, zoom levels) are modelled as rationals; JavaScript truthiness of
a numeric option is "present and nonzero", of a string option "present and
nonempty".  The Google Maps API objects (map, bounds, markers, listeners)
are modelled as explicit data; asynchronous viewport-change
(bounds_changed) notifications are modelled as an explicit dispatch step
that runs the registered listeners in order.  Process-wide state (the
Plugin.loaded flag, the window.googleMaps pending list, element data slots,
window resize-event subscriptions) lives in a World record, and executions
are traces of events over it.
-/

/-- Truthiness of an optional numeric value: JavaScript treats 0, false and
undefined as falsy, so a numeric option is truthy iff present and nonzero. -/
def numTruthy : Option ℚ → Bool
  | none => false
  | some q => q != 0

/-- Truthiness of an optional string value: the empty string is falsy. -/
def strTruthy : Option String → Bool
  | none => false
  | some s => s != ""

/-- The `marker` point option: `false`, `true`, or an icon URL string
(source default `marker: false`). -/
inductive MarkerOpt where
  | boolFalse : MarkerOpt
  | boolTrue : MarkerOpt
  | icon (url : String) : MarkerOpt
deriving DecidableEq, Repr

/-- JavaScript truthiness of the marker option (an empty string is falsy). -/
def MarkerOpt.truthy : MarkerOpt → Bool
  | .boolFalse => false
  | .boolTrue => true
  | .icon u => u != ""

/-- The icon URL when the marker option is a string
(source: `$.type(point.marker) === 'string'`). -/
def MarkerOpt.iconUrl : MarkerOpt → Option String
  | .icon u => some u
  | _ => none

/-- Per-point options merged over the point defaults of `insertPoint`
(source lines 212-218): all fields default to `false`/absent. -/
structure PointOptions where
  lat : Option ℚ := none
  lng : Option ℚ := none
  marker : MarkerOpt := .boolFalse
  title : Option String := none
  infoWindow : Option String := none
deriving DecidableEq, Repr

/-- The `center` option object; the source checks
`typeof location.lat !== 'undefined'` and likewise for `lng`, so each
coordinate may independently be absent. -/
structure CenterOpt where
  lat : Option ℚ := none
  lng : Option ℚ := none
deriving DecidableEq, Repr

/-- Plugin options merged over `defaults` (source lines 9-17).  The user
`callback` is modelled by its presence only (its invocation is an effect on
the caller, outside this model). -/
structure MapOptions where
  callback : Bool := false
  center : Option CenterOpt := none
  key : Option String := none
  options : List (String × String) := []
  points : List PointOptions := []
  responsive : Bool := false
  zoom : Option ℚ := none
deriving DecidableEq, Repr

/-- The default options record (source lines 9-17): every field falsy/empty. -/
def defaults : MapOptions := {}

/-- An axis-aligned latitude/longitude rectangle, the concrete form of a
non-empty Google Maps LatLngBounds. -/
structure Rect where
  south : ℚ
  north : ℚ
  west : ℚ
  east : ℚ
deriving DecidableEq, Repr

/-- A bounds accumulator: `none` is the empty bounds produced by
`new google.maps.LatLngBounds()`. -/
abbrev LatLngBounds := Option Rect

/-- The empty bounds (`new google.maps.LatLngBounds()`). -/
def LatLngBounds.empty : LatLngBounds := none

/-- `bounds.extend(location)`: grow the rectangle to include the point. -/
def LatLngBounds.extend (b : LatLngBounds) (p : ℚ × ℚ) : LatLngBounds :=
  match b with
  | none => some ⟨p.1, p.1, p.2, p.2⟩
  | some r => some ⟨min r.south p.1, max r.north p.1, min r.west p.2, max r.east p.2⟩

/-- Membership of a point in a bounds accumulator. -/
def LatLngBounds.contains (b : LatLngBounds) (p : ℚ × ℚ) : Bool :=
  match b with
  | none => false
  | some r =>
      decide (r.south ≤ p.1) && decide (p.1 ≤ r.north)
        && decide (r.west ≤ p.2) && decide (p.2 ≤ r.east)

/-- A marker placed on the map (source lines 240-265).  The click listener
that opens the info window is represented by the stored info-window
content. -/
structure Marker where
  position : ℚ × ℚ
  icon : Option String := none
  title : Option String := none
  infoWindow : Option String := none
deriving DecidableEq, Repr

/-- A bounds_changed listener registered by `zoom()`: either the
center-reapplying closure (source lines 171-181) or the zoom-reapplying
closure (source lines 188-198), each capturing the value it re-applies. -/
inductive Listener where
  | centerL (loc : ℚ × ℚ) : Listener
  | zoomL (z : ℚ) : Listener
deriving DecidableEq, Repr

/-- The state of a `google.maps.Map` object as used by the plugin: the
current center/zoom, the native options applied via `setOptions`, the
markers bound to it, the registered bounds_changed listeners, and a record
of `fitBounds` calls (count and last argument). -/
structure MapHandle where
  centerVal : Option (ℚ × ℚ) := none
  zoomVal : Option ℚ := none
  nativeOptions : List (String × String) := []
  markers : List Marker := []
  listeners : List Listener := []
  fitCount : Nat := 0
  lastFit : Option LatLngBounds := none
deriving DecidableEq, Repr

/-- A DOM element as the plugin sees it: its `style` attribute (`none` when
absent) and its inner content. -/
structure Element where
  style : Option String := none
  content : String := ""
deriving DecidableEq, Repr

/-- A Plugin instance (source constructor lines 36-46 plus `init` lines
63-68): the merged options, the saved style/content captured at
construction, the one-shot guard flags `_centered`/`_zoomed`, and the map
and bounds handles created at draw time.  `centerApps`/`zoomApps` are ghost
counters of how many times a bounds_changed listener actually re-applied
the center resp. the zoom. -/
structure Instance where
  options : MapOptions
  savedStyles : Option String
  savedContent : String
  centered : Bool
  zoomed : Bool
  map? : Option MapHandle := none
  bounds : LatLngBounds := LatLngBounds.empty
  centerApps : Nat := 0
  zoomApps : Nat := 0
deriving DecidableEq, Repr

/-- The Plugin constructor together with `init` (source lines 36-46 and
63-68): merge the options over the defaults, capture the element's style
attribute and inner content, and arm the guard flags.  (`init` then calls
`load()`, which is a process-wide effect modelled by `attach` on `World`
below.) -/
def Plugin.new (el : Element) (o : MapOptions) : Instance :=
  { options := o
    savedStyles := el.style
    savedContent := el.content
    centered := false
    zoomed := false }

/-- `Plugin.prototype.insertPoint` (source lines 208-266): merge the point
options over the point defaults, drop the point when `lat` or `lng` is
falsy, otherwise extend the bounds; then, when a marker is requested,
create a marker at the location with the optional icon, title and
info-window click listener.  The function is total: an invalid point is a
no-op, never an error. -/
def Plugin.insertPoint (inst : Instance) (point : PointOptions) : Instance :=
  if !numTruthy point.lat || !numTruthy point.lng then inst
  else
    let location : ℚ × ℚ := (point.lat.getD 0, point.lng.getD 0)
    let inst1 : Instance := { inst with bounds := inst.bounds.extend location }
    if !point.marker.truthy then inst1
    else
      match inst1.map? with
      | none => inst1
      | some m =>
          { inst1 with
              map? := some { m with
                markers := m.markers ++
                  [{ position := location
                     icon := point.marker.iconUrl
                     title := if strTruthy point.title then point.title else none
                     infoWindow :=
                       if strTruthy point.infoWindow then point.infoWindow else none }] } }

/-- `Plugin.prototype.zoom` (source lines 158-200): call `fitBounds` with
the bounds accumulator (an asynchronous operation whose viewport effect
arrives through later bounds_changed notifications, recorded here by
`fitCount`/`lastFit`); when a center with both coordinates defined is
configured, set it and register the center-reapplying bounds_changed
listener; when a truthy zoom is configured, set it and register the
zoom-reapplying listener.  The method is only ever called after `draw()`
has created the map, so the `map? = none` branch is unreachable and is a
no-op. -/
def Plugin.zoom (inst : Instance) : Instance :=
  match inst.map? with
  | none => inst
  | some m =>
      let m1 : MapHandle := { m with fitCount := m.fitCount + 1, lastFit := some inst.bounds }
      let m2 : MapHandle :=
        match inst.options.center with
        | some c =>
            if c.lat.isSome && c.lng.isSome then
              { m1 with
                  centerVal := some (c.lat.getD 0, c.lng.getD 0)
                  listeners := m1.listeners ++ [.centerL (c.lat.getD 0, c.lng.getD 0)] }
            else m1
        | none => m1
      let m3 : MapHandle :=
        if numTruthy inst.options.zoom then
          { m2 with
              zoomVal := some (inst.options.zoom.getD 0)
              listeners := m2.listeners ++ [.zoomL (inst.options.zoom.getD 0)] }
        else m2
      { inst with map? := some m3 }

/-- `Plugin.prototype.draw` (source lines 119-149): create a fresh map
object for the element, create a fresh empty bounds accumulator, apply the
native passthrough options, insert every configured point, and run
`zoom()`.  The conditional window-resize subscription (lines 139-143) and
the user callback (lines 146-148) are effects on process-wide state and
are modelled in `drawInstW` on `World` below.  Note: `draw` never touches
the `_centered`/`_zoomed` guard flags. -/
def Plugin.draw (inst : Instance) : Instance :=
  Plugin.zoom
    (inst.options.points.foldl Plugin.insertPoint
      { inst with
          map? := some { nativeOptions := inst.options.options }
          bounds := LatLngBounds.empty })

/-- The body of one bounds_changed listener (source lines 171-181 for the
center listener, 188-198 for the zoom listener): return immediately when
the corresponding guard flag is already set, otherwise re-apply the
captured value, flip the flag, and (ghost) count the application. -/
def runListener (inst : Instance) (l : Listener) : Instance :=
  match l with
  | .centerL loc =>
      if inst.centered then inst
      else
        match inst.map? with
        | none => inst
        | some m =>
            { inst with
                map? := some { m with centerVal := some loc }
                centered := true
                centerApps := inst.centerApps + 1 }
  | .zoomL z =>
      if inst.zoomed then inst
      else
        match inst.map? with
        | none => inst
        | some m =>
            { inst with
                map? := some { m with zoomVal := some z }
                zoomed := true
                zoomApps := inst.zoomApps + 1 }

/-- One viewport-change (bounds_changed) notification from the mapping
API: run every listener registered on the map, in registration order. -/
def Plugin.notify (inst : Instance) : Instance :=
  match inst.map? with
  | none => inst
  | some m => m.listeners.foldl runListener inst

/-- jQuery's attribute write `wrap.attr(name, value)`: when the value is
undefined, jQuery treats the call as a getter and performs no write — it
neither sets nor removes the attribute — so the attribute is written only
when the value is defined. -/
def jqAttrSet (el : Element) (v : Option String) : Element :=
  match v with
  | none => el
  | some s => { el with style := some s }

/-- `Plugin.prototype.remove` restoring the element (source lines 274-279):
write the saved inner content back with `wrap.html(this._content)`, then
run `wrap.attr('style', this._styles)` — a real write only when a style
attribute existed at construction, a no-op when `_styles` is undefined. -/
def Plugin.removeEl (p : Instance) (el : Element) : Element :=
  jqAttrSet { el with content := p.savedContent } p.savedStyles

/-- Per-instance events: a `draw()` call (initial draw or redraw), a
viewport-change notification, or a bare `zoom()` call (as triggered by the
debounced resize signal on a responsive map). -/
inductive IEv where
  | draw : IEv
  | notify : IEv
  | zoomCall : IEv

/-- Step an instance by one event. -/
def istep (inst : Instance) : IEv → Instance
  | .draw => Plugin.draw inst
  | .notify => Plugin.notify inst
  | .zoomCall => Plugin.zoom inst

/-- Run an instance through a list of events. -/
def irun (inst : Instance) (evs : List IEv) : Instance :=
  evs.foldl istep inst

/-- An element with no style attribute and empty content. -/
def el0 : Element := {}

/-- The options record of the specification scenario `{zoom: 5}`. -/
def opts5 : MapOptions := { zoom := some 5 }

/-!  Process-wide state.  Plugin instances are heap objects referenced by
identity (closures and the pending list keep an instance alive even after
`destroy()` detaches it from its element's data slot), so the world keeps
a heap of instances addressed by allocation ids, a per-element data slot
holding an instance id (`$.data(element, name)`), the per-element DOM
state, the loader state (`Plugin.loaded`, `window.googleMaps`, the issued
script URLs, availability of the API), the window-resize subscriptions
created by `draw()` for responsive maps, and a ghost log of `draw()`
invocations in order. -/

/-- Heap update at one instance id. -/
def hupd (h : Nat → Option Instance) (i : Nat) (v : Instance) : Nat → Option Instance :=
  fun j => if j = i then some v else h j

/-- Data-slot update at one element (`$.data(element, name, instance)`). -/
def rupd (r : Nat → Option Nat) (e : Nat) (i : Nat) : Nat → Option Nat :=
  fun j => if j = e then some i else r j

/-- Data-slot removal at one element (`$.removeData(element, name)`). -/
def rdel (r : Nat → Option Nat) (e : Nat) : Nat → Option Nat :=
  fun j => if j = e then none else r j

/-- DOM-state update at one element. -/
def eupd (m : Nat → Element) (e : Nat) (v : Element) : Nat → Element :=
  fun j => if j = e then v else m j

/-- Process-wide state. -/
structure World where
  heap : Nat → Option Instance
  nextId : Nat
  registry : Nat → Option Nat
  elements : Nat → Element
  apiAvailable : Bool
  loaded : Bool
  pending : Option (List Nat)
  requests : List String
  drawnLog : List Nat
  resizeHandlers : List Nat

/-- The script URL built by `load()` (source lines 98-103).  The key
option defaults to `false`, which JavaScript string concatenation renders
as the text "false". -/
def mapsUrl (key : Option String) : String :=
  "//maps.googleapis.com/maps/api/js?v=3.31&callback=googleMapsInit&key="
    ++ key.getD "false"

/-- A `draw()` invocation on the heap instance `i` with its process-wide
effects (source lines 119-149): update the instance by `Plugin.draw`, log
the invocation, and subscribe a window-resize handler when the map is
responsive.  The pending list always holds live instances, so the
`heap i = none` branch is unreachable and a no-op. -/
def drawInstW (w : World) (i : Nat) : World :=
  match w.heap i with
  | none => w
  | some inst =>
      let w1 : World :=
        { w with heap := hupd w.heap i (Plugin.draw inst), drawnLog := w.drawnLog ++ [i] }
      if inst.options.responsive then
        { w1 with resizeHandlers := w1.resizeHandlers ++ [i] }
      else w1

/-- `Plugin.prototype.load` (source lines 76-111) for the freshly
constructed instance `i` with merged options `o`: when the API is already
available, set `Plugin.loaded` and draw immediately; otherwise create the
`window.googleMaps` list if undefined, append the instance, and, unless a
load was already issued, issue exactly one script request and set
`Plugin.loaded`. -/
def loadW (w : World) (i : Nat) (o : MapOptions) : World :=
  if w.apiAvailable then drawInstW { w with loaded := true } i
  else
    let w1 : World := { w with pending := some ((w.pending.getD []) ++ [i]) }
    if w1.loaded then w1
    else { w1 with loaded := true, requests := w1.requests ++ [mapsUrl o.key] }

/-- Construct-or-skip on one element (source lines 340-345): when the
element's data slot is empty, allocate a new Plugin instance (constructor
plus `init`, which captures the element's style/content and calls
`load()`), then store it in the data slot; when an instance already
exists, do nothing. -/
def attach (w : World) (e : Nat) (o : MapOptions) : World :=
  match w.registry e with
  | some _ => w
  | none =>
      let i := w.nextId
      let w1 : World :=
        { w with heap := hupd w.heap i (Plugin.new (w.elements e) o), nextId := i + 1 }
      let w2 := loadW w1 i o
      { w2 with registry := rupd w2.registry e i }

/-- A named command on one element (source lines 322-337): silently ignored
when the element has no instance; otherwise `redraw` re-invokes `draw()`,
`remove` restores the element's saved style/content, `destroy` does the
same and then detaches the instance from the data slot, and any other
string is ignored. -/
def applyCommand (w : World) (e : Nat) (s : String) : World :=
  match w.registry e with
  | none => w
  | some i =>
      match w.heap i with
      | none => w
      | some inst =>
          match s with
          | "redraw" => drawInstW w i
          | "remove" =>
              { w with elements := eupd w.elements e (Plugin.removeEl inst (w.elements e)) }
          | "destroy" =>
              { w with
                  elements := eupd w.elements e (Plugin.removeEl inst (w.elements e))
                  registry := rdel w.registry e }
          | _ => w

/-- `window.googleMapsInit` (source lines 359-367): a no-op when
`window.googleMaps` is undefined, otherwise iterate the pending list in
order calling `draw()` on each instance.  The list is not cleared. -/
def googleMapsInitW (w : World) : World :=
  match w.pending with
  | none => w
  | some l => l.foldl drawInstW w

/-- One debounced-resize handler invocation: the closure registered by
`draw()` (source lines 140-142) captured the instance object, so it calls
`zoom()` on that instance whether or not the instance is still attached to
its element's data slot. -/
def zoomHandler (w : World) (i : Nat) : World :=
  match w.heap i with
  | none => w
  | some inst => { w with heap := hupd w.heap i (Plugin.zoom inst) }

/-- Process-wide events: a plugin call on an element with an options
object, a plugin call with a command string, the external script finishing
(which makes the API available and invokes `googleMapsInit`), and the
debounced window-resize signal firing (which runs every subscribed
handler in subscription order). -/
inductive WEv where
  | attach (e : Nat) (o : MapOptions) : WEv
  | command (e : Nat) (s : String) : WEv
  | scriptLoad : WEv
  | resizeFire : WEv

/-- Step the world by one event. -/
def stepW (w : World) : WEv → World
  | .attach e o => attach w e o
  | .command e s => applyCommand w e s
  | .scriptLoad => googleMapsInitW { w with apiAvailable := true }
  | .resizeFire => w.resizeHandlers.foldl zoomHandler w

/-- Run the world through a list of events. -/
def runW (w : World) (evs : List WEv) : World :=
  evs.foldl stepW w

/-- A fresh process: empty heap, empty data slots, all elements in the
`el0` state, nothing loaded or pending, with the mapping API available
iff `a` (it may have been loaded by some other script on the page). -/
def w0a (a : Bool) : World :=
  { heap := fun _ => none
    nextId := 0
    registry := fun _ => none
    elements := fun _ => el0
    apiAvailable := a
    loaded := false
    pending := none
    requests := []
    drawnLog := []
    resizeHandlers := [] }

/-!  The public jQuery entry point `$.fn[name]` (source lines 299-350). -/

/-- A jQuery collection: the selected element ids, plus the `options`
property the source reads at line 303.  jQuery collection objects define
no such property, so it is `none` for every collection a caller can
build; the field exists because the source reads `_this.options`. -/
structure JQCollection where
  elems : List Nat
  options : Option String := none
deriving DecidableEq, Repr

/-- The argument of a plugin call: a command string or an options object
(an absent argument behaves like an empty options object after the
`$.extend` merge). -/
inductive PluginArg where
  | cmd (s : String) : PluginArg
  | config (o : MapOptions) : PluginArg
deriving DecidableEq, Repr

/-- What a plugin call returns: the collection itself (for chaining), a
single value, or an array of values. -/
inductive FnResult where
  | chain (c : JQCollection) : FnResult
  | single (i : Option Nat) : FnResult
  | many (l : List (Option Nat)) : FnResult
deriving DecidableEq, Repr

/-- The per-element body of the `each` loop (source lines 318-346). -/
def elemApply (w : World) (e : Nat) (arg : PluginArg) : World :=
  match arg with
  | .cmd s => applyCommand w e s
  | .config o => attach w e o

/-- `$.fn[name]` (source lines 299-350).  The instance-retrieval branch
tests `_this.options === 'instance'` where `_this` is the jQuery
collection, and inside it reads `$.data(_this, name)` — the data record of
the collection object itself, which is never written, hence `none` per
element.  Otherwise the argument is applied to each element and the
collection is returned for chaining. -/
def fnGoogleMaps (w : World) (c : JQCollection) (arg : PluginArg) : FnResult × World :=
  if c.options == some "instance" then
    let instances : List (Option Nat) := c.elems.map (fun _ => none)
    if instances.length == 1 then (.single (instances.getD 0 none), w)
    else (.many instances, w)
  else
    (.chain c, c.elems.foldl (fun w e => elemApply w e arg) w)

/-!  Instance-level lemmas: the guard flags and ghost counters are
untouched by point insertion and by the `zoom()` method, hence by
`draw()`. -/

/-- Fields of an instance that `insertPoint` and `zoom` never modify. -/
def GuardEq (a b : Instance) : Prop :=
  a.centered = b.centered ∧ a.zoomed = b.zoomed
    ∧ a.centerApps = b.centerApps ∧ a.zoomApps = b.zoomApps
    ∧ a.savedStyles = b.savedStyles ∧ a.savedContent = b.savedContent

lemma guardEq_refl (a : Instance) : GuardEq a a :=
  ⟨rfl, rfl, rfl, rfl, rfl, rfl⟩

lemma guardEq_trans {a b c : Instance} (h1 : GuardEq a b) (h2 : GuardEq b c) :
    GuardEq a c := by
  obtain ⟨x1, x2, x3, x4, x5, x6⟩ := h1
  obtain ⟨y1, y2, y3, y4, y5, y6⟩ := h2
  exact ⟨x1.trans y1, x2.trans y2, x3.trans y3, x4.trans y4, x5.trans y5, x6.trans y6⟩

lemma insertPoint_guardEq (inst : Instance) (p : PointOptions) :
    GuardEq (Plugin.insertPoint inst p) inst := by
  simp only [Plugin.insertPoint]
  split
  · exact guardEq_refl _
  · split
    · exact guardEq_refl _
    · split
      · exact guardEq_refl _
      · exact ⟨rfl, rfl, rfl, rfl, rfl, rfl⟩

lemma foldl_insertPoint_guardEq (pts : List PointOptions) (inst : Instance) :
    GuardEq (pts.foldl Plugin.insertPoint inst) inst := by
  induction pts generalizing inst with
  | nil => exact guardEq_refl _
  | cons p rest ih =>
      exact guardEq_trans (ih (Plugin.insertPoint inst p)) (insertPoint_guardEq inst p)

lemma zoom_guardEq (inst : Instance) : GuardEq (Plugin.zoom inst) inst := by
  simp only [Plugin.zoom]
  split
  · exact guardEq_refl _
  · exact ⟨rfl, rfl, rfl, rfl, rfl, rfl⟩

lemma draw_guardEq (inst : Instance) : GuardEq (Plugin.draw inst) inst := by
  unfold Plugin.draw
  exact guardEq_trans (zoom_guardEq _)
    (guardEq_trans (foldl_insertPoint_guardEq _ _) ⟨rfl, rfl, rfl, rfl, rfl, rfl⟩)

/-!  The one-shot guard invariant: each ghost counter is at most 1 and is
still 0 while its guard flag is unset. -/

/-- The guard invariant tying the ghost re-application counters to the
`_centered`/`_zoomed` flags. -/
def GuardInv (s : Instance) : Prop :=
  s.centerApps ≤ 1 ∧ (s.centered = false → s.centerApps = 0)
    ∧ s.zoomApps ≤ 1 ∧ (s.zoomed = false → s.zoomApps = 0)

lemma guardInv_of_guardEq {a b : Instance} (h : GuardEq a b) (hb : GuardInv b) :
    GuardInv a := by
  obtain ⟨h1, h2, h3, h4, -, -⟩ := h
  obtain ⟨i1, i2, i3, i4⟩ := hb
  exact ⟨h3 ▸ i1, fun hc => h3 ▸ i2 (h1 ▸ hc), h4 ▸ i3, fun hz => h4 ▸ i4 (h2 ▸ hz)⟩

lemma runListener_inv {s : Instance} (l : Listener) (h : GuardInv s) :
    GuardInv (runListener s l) := by
  obtain ⟨i1, i2, i3, i4⟩ := h
  rcases l with loc | z
  · simp only [runListener]
    split
    · exact ⟨i1, i2, i3, i4⟩
    · next hc =>
        split
        · exact ⟨i1, i2, i3, i4⟩
        · refine ⟨?_, ?_, i3, i4⟩
          · simp [i2 (Bool.not_eq_true _ ▸ Bool.of_not_eq_true hc)]
          · intro hfalse; simp at hfalse
  · simp only [runListener]
    split
    · exact ⟨i1, i2, i3, i4⟩
    · next hz =>
        split
        · exact ⟨i1, i2, i3, i4⟩
        · refine ⟨i1, i2, ?_, ?_⟩
          · simp [i4 (Bool.not_eq_true _ ▸ Bool.of_not_eq_true hz)]
          · intro hfalse; simp at hfalse

lemma foldl_runListener_inv (ls : List Listener) {s : Instance} (h : GuardInv s) :
    GuardInv (ls.foldl runListener s) := by
  induction ls generalizing s with
  | nil => exact h
  | cons l rest ih => exact ih (runListener_inv l h)

lemma notify_inv {s : Instance} (h : GuardInv s) : GuardInv (Plugin.notify s) := by
  unfold Plugin.notify
  split
  · exact h
  · exact foldl_runListener_inv _ h

lemma istep_inv {s : Instance} (ev : IEv) (h : GuardInv s) : GuardInv (istep s ev) := by
  rcases ev with _ | _ | _
  · exact guardInv_of_guardEq (draw_guardEq s) h
  · exact notify_inv h
  · exact guardInv_of_guardEq (zoom_guardEq s) h

lemma irun_inv (evs : List IEv) {s : Instance} (h : GuardInv s) :
    GuardInv (irun s evs) := by
  induction evs generalizing s with
  | nil => exact h
  | cons ev rest ih => exact ih (istep_inv ev h)

/-!  Bounds-accumulator lemmas. -/

lemma contains_extend_self (b : LatLngBounds) (q : ℚ × ℚ) :
    (b.extend q).contains q = true := by
  rcases b with _ | r
  · simp [LatLngBounds.extend, LatLngBounds.contains]
  · simp [LatLngBounds.extend, LatLngBounds.contains, min_le_right, le_max_right]

lemma contains_extend_mono (b : LatLngBounds) (p q : ℚ × ℚ)
    (h : b.contains q = true) : (b.extend p).contains q = true := by
  rcases b with _ | r
  · simp [LatLngBounds.contains] at h
  · simp only [LatLngBounds.contains, Bool.and_eq_true, decide_eq_true_eq] at h
    obtain ⟨⟨⟨h1, h2⟩, h3⟩, h4⟩ := h
    simp only [LatLngBounds.extend, LatLngBounds.contains, Bool.and_eq_true,
      decide_eq_true_eq]
    exact ⟨⟨⟨le_trans (min_le_left _ _) h1, le_trans h2 (le_max_left _ _)⟩,
      le_trans (min_le_left _ _) h3⟩, le_trans h4 (le_max_left _ _)⟩

lemma insertPoint_bounds (inst : Instance) (p : PointOptions)
    (hla : numTruthy p.lat = true) (hln : numTruthy p.lng = true) :
    (Plugin.insertPoint inst p).bounds
      = inst.bounds.extend (p.lat.getD 0, p.lng.getD 0) := by
  simp only [Plugin.insertPoint, hla, hln, Bool.not_true, Bool.or_self, Bool.false_eq_true,
    if_false]
  split
  · rfl
  · split
    · rfl
    · rfl

/-!  Claim theorems C1, C2, C7, C8. -/

/-- C1 (corrected, counterexample): the claim says every `draw()` call
resets the guard flags `_centered`/`_zoomed` to false before the
fit-bounds step.  It fails: with options `{zoom: 5}`, after a first draw
and one viewport-change notification the `_zoomed` flag is true, and a
redraw leaves it true (nothing in `draw()` writes the flags), whereas
under the claim the flag would be false right after the redraw, since only
a notification handled after that draw could flip it back. -/
theorem draw_resets_guard_flags_cex :
    (Plugin.draw (Plugin.notify (Plugin.draw (Plugin.new el0 opts5)))).zoomed = true := by
  decide

/-- C1 (amended): the guard flags `_centered` and `_zoomed` are set to
false once, by the constructor; `draw()` (initial draw and every redraw)
never resets them — it preserves their values — so the center/zoom
re-application guard is armed only until its first trip and is not
re-armed on later draw cycles. -/
theorem guard_flags_constructor_only :
    (∀ (el : Element) (o : MapOptions),
        (Plugin.new el o).centered = false ∧ (Plugin.new el o).zoomed = false)
    ∧ (∀ inst : Instance,
        (Plugin.draw inst).centered = inst.centered
          ∧ (Plugin.draw inst).zoomed = inst.zoomed) :=
  ⟨fun _ _ => ⟨rfl, rfl⟩, fun inst => ⟨(draw_guardEq inst).1, (draw_guardEq inst).2.1⟩⟩

/-- C2 (confirmed): over every event trace of draws, viewport-change
notifications and resize-triggered `zoom()` calls starting from a freshly
constructed instance, the bounds_changed listeners re-apply the center at
most once and the zoom at most once in total — hence at most once per draw
cycle, no matter how many notifications fire; and in the `{zoom: 5}`,
no-center scenario, after a draw followed by two or more notifications the
zoom has been re-applied exactly once and the map's zoom is 5, never
overwritten back by a later notification. -/
theorem listeners_reapply_at_most_once :
    (∀ (el : Element) (o : MapOptions) (evs : List IEv),
        (irun (Plugin.new el o) evs).centerApps ≤ 1
          ∧ (irun (Plugin.new el o) evs).zoomApps ≤ 1)
    ∧ (∀ n : Nat,
        (Plugin.notify^[n + 2] (Plugin.draw (Plugin.new el0 opts5))).zoomApps = 1
          ∧ (Plugin.notify^[n + 2] (Plugin.draw (Plugin.new el0 opts5))).map?.map
              MapHandle.zoomVal = some (some 5)) := by
  constructor
  · intro el o evs
    have h0 : GuardInv (Plugin.new el o) :=
      ⟨Nat.zero_le _, fun _ => rfl, Nat.zero_le _, fun _ => rfl⟩
    have h := irun_inv evs h0
    exact ⟨h.1, h.2.2.1⟩
  · intro n
    have hfix : Plugin.notify (Plugin.notify (Plugin.draw (Plugin.new el0 opts5)))
        = Plugin.notify (Plugin.draw (Plugin.new el0 opts5)) := by decide
    have h : Plugin.notify^[n + 2] (Plugin.draw (Plugin.new el0 opts5))
        = Plugin.notify (Plugin.draw (Plugin.new el0 opts5)) := by
      rw [show n + 2 = (n + 1) + 1 from rfl, Function.iterate_succ_apply]
      exact Function.iterate_fixed hfix (n + 1)
    rw [h]
    exact ⟨by decide, by decide⟩

/-- C7 (confirmed): a point whose lat or lng is falsy (zero, missing, or
explicitly false) is dropped with no effect at all: `insertPoint` returns
the instance unchanged (bounds and marker set included), and being a total
function it raises no error. -/
theorem invalid_point_is_noop :
    ∀ (inst : Instance) (p : PointOptions),
      numTruthy p.lat = false ∨ numTruthy p.lng = false →
      Plugin.insertPoint inst p = inst := by
  intro inst p h
  have hc : (!numTruthy p.lat || !numTruthy p.lng) = true := by
    rcases h with h | h <;> simp [h]
  simp [Plugin.insertPoint, hc]

/-- A concrete instance with a non-empty bounds accumulator and a live
map handle, used to instantiate the point-insertion theorems. -/
def instW : Instance :=
  { Plugin.new el0 {} with bounds := some ⟨0, 0, 0, 0⟩, map? := some {} }

/-- Witness for C7: inserting a point with a missing latitude into a
concrete instance leaves it exactly unchanged. -/
theorem invalid_point_is_noop_w :
    Plugin.insertPoint instW { lng := some 2 } = instW :=
  invalid_point_is_noop instW { lng := some 2 } (Or.inl rfl)

/-- C8 (confirmed): for a point with truthy lat and lng, `insertPoint`
sets the bounds to exactly the old bounds extended by `(lat, lng)` —
independently of the marker option, since only the bounds field is
computed before the marker check — so the new bounds contain the new
location and contain every point the old bounds contained (monotonic
growth). -/
theorem valid_point_extends_bounds :
    ∀ (inst : Instance) (p : PointOptions),
      numTruthy p.lat = true → numTruthy p.lng = true →
      (Plugin.insertPoint inst p).bounds
          = inst.bounds.extend (p.lat.getD 0, p.lng.getD 0)
        ∧ (Plugin.insertPoint inst p).bounds.contains (p.lat.getD 0, p.lng.getD 0) = true
        ∧ ∀ q : ℚ × ℚ, inst.bounds.contains q = true →
            (Plugin.insertPoint inst p).bounds.contains q = true := by
  intro inst p hla hln
  have hb := insertPoint_bounds inst p hla hln
  refine ⟨hb, ?_, ?_⟩
  · rw [hb]; exact contains_extend_self _ _
  · intro q hq; rw [hb]; exact contains_extend_mono _ _ _ hq

/-- Witness for C8 at a concrete instance and point, with a marker-free
point: the bounds become the extension by (1, 2), contain (1, 2), and
still contain the old corner (0, 0). -/
theorem valid_point_extends_bounds_w :
    (Plugin.insertPoint instW { lat := some 1, lng := some 2 }).bounds
        = instW.bounds.extend (1, 2)
      ∧ (Plugin.insertPoint instW { lat := some 1, lng := some 2 }).bounds.contains
          (1, 2) = true
      ∧ (Plugin.insertPoint instW { lat := some 1, lng := some 2 }).bounds.contains
          (0, 0) = true :=
  ⟨(valid_point_extends_bounds instW { lat := some 1, lng := some 2 }
      (by decide) (by decide)).1,
   (valid_point_extends_bounds instW { lat := some 1, lng := some 2 }
      (by decide) (by decide)).2.1,
   (valid_point_extends_bounds instW { lat := some 1, lng := some 2 }
      (by decide) (by decide)).2.2 (0, 0) (by decide)⟩

/-!  World-level frame lemmas: which fields each operation leaves alone. -/

lemma drawInstW_frame (w : World) (i : Nat) :
    (drawInstW w i).requests = w.requests ∧ (drawInstW w i).loaded = w.loaded
      ∧ (drawInstW w i).apiAvailable = w.apiAvailable
      ∧ (drawInstW w i).pending = w.pending
      ∧ (drawInstW w i).registry = w.registry
      ∧ (drawInstW w i).nextId = w.nextId
      ∧ (drawInstW w i).elements = w.elements := by
  simp only [drawInstW]
  split
  · exact ⟨rfl, rfl, rfl, rfl, rfl, rfl, rfl⟩
  · split <;> exact ⟨rfl, rfl, rfl, rfl, rfl, rfl, rfl⟩

lemma foldl_drawInstW_frame (ids : List Nat) (w : World) :
    ((ids.foldl drawInstW w).requests = w.requests)
      ∧ ((ids.foldl drawInstW w).loaded = w.loaded)
      ∧ ((ids.foldl drawInstW w).apiAvailable = w.apiAvailable)
      ∧ ((ids.foldl drawInstW w).pending = w.pending) := by
  induction ids generalizing w with
  | nil => exact ⟨rfl, rfl, rfl, rfl⟩
  | cons i rest ih =>
      obtain ⟨a1, a2, a3, a4, -, -, -⟩ := drawInstW_frame w i
      obtain ⟨b1, b2, b3, b4⟩ := ih (drawInstW w i)
      exact ⟨b1.trans a1, b2.trans a2, b3.trans a3, b4.trans a4⟩

lemma zoomHandler_frame (w : World) (i : Nat) :
    (zoomHandler w i).requests = w.requests ∧ (zoomHandler w i).loaded = w.loaded
      ∧ (zoomHandler w i).apiAvailable = w.apiAvailable
      ∧ (zoomHandler w i).pending = w.pending := by
  simp only [zoomHandler]
  split <;> exact ⟨rfl, rfl, rfl, rfl⟩

lemma foldl_zoomHandler_frame (ids : List Nat) (w : World) :
    ((ids.foldl zoomHandler w).requests = w.requests)
      ∧ ((ids.foldl zoomHandler w).loaded = w.loaded)
      ∧ ((ids.foldl zoomHandler w).apiAvailable = w.apiAvailable)
      ∧ ((ids.foldl zoomHandler w).pending = w.pending) := by
  induction ids generalizing w with
  | nil => exact ⟨rfl, rfl, rfl, rfl⟩
  | cons i rest ih =>
      obtain ⟨a1, a2, a3, a4⟩ := zoomHandler_frame w i
      obtain ⟨b1, b2, b3, b4⟩ := ih (zoomHandler w i)
      exact ⟨b1.trans a1, b2.trans a2, b3.trans a3, b4.trans a4⟩

lemma googleMapsInitW_pending (w : World) : (googleMapsInitW w).pending = w.pending := by
  simp only [googleMapsInitW]
  split
  · rfl
  · exact (foldl_drawInstW_frame _ _).2.2.2

lemma applyCommand_frame (w : World) (e : Nat) (s : String) :
    (applyCommand w e s).requests = w.requests ∧ (applyCommand w e s).loaded = w.loaded
      ∧ (applyCommand w e s).apiAvailable = w.apiAvailable
      ∧ (applyCommand w e s).pending = w.pending := by
  simp only [applyCommand]
  split
  · exact ⟨rfl, rfl, rfl, rfl⟩
  · split
    · exact ⟨rfl, rfl, rfl, rfl⟩
    · split
      · obtain ⟨a1, a2, a3, a4, -, -, -⟩ := drawInstW_frame w _
        exact ⟨a1, a2, a3, a4⟩
      · exact ⟨rfl, rfl, rfl, rfl⟩
      · exact ⟨rfl, rfl, rfl, rfl⟩
      · exact ⟨rfl, rfl, rfl, rfl⟩

/-!  Claim theorems C5, C6, C9, C10. -/

/-- C5 (corrected, counterexample): the claimed invariant says the pending
queue is non-empty only while the API is not ready, and in particular is
empty again once the completion callback has run.  It fails: construct one
instance before readiness, then run the script-load completion — the
callback draws the pending instance but never clears `window.googleMaps`,
so the final state has the API available and the queue still holding the
instance. -/
theorem pending_empty_after_ready_cex :
    (runW (w0a false) [WEv.attach 0 {}, WEv.scriptLoad]).apiAvailable = true
      ∧ (runW (w0a false) [WEv.attach 0 {}, WEv.scriptLoad]).pending = some [0] :=
  ⟨rfl, rfl⟩

/-- C5 (amended): the pending queue only grows while the API is not yet
ready — a construction with the API available draws immediately and never
enqueues — but the completion callback does not clear the queue: it leaves
`pending` exactly as it was, so the queue may stay non-empty after the API
is ready. -/
theorem pending_grows_only_before_ready :
    (∀ (w : World) (e : Nat) (o : MapOptions),
        w.apiAvailable = true → (attach w e o).pending = w.pending)
    ∧ (∀ w : World, (googleMapsInitW w).pending = w.pending) := by
  constructor
  · intro w e o ha
    simp only [attach]
    split
    · rfl
    · simp only [loadW, ha, if_true]
      exact (drawInstW_frame _ _).2.2.2.1
  · exact googleMapsInitW_pending

/-- Witness for the amended C5 at a concrete world with the API available:
attaching enqueues nothing, and the completion callback leaves the (empty)
queue unchanged. -/
theorem pending_grows_only_before_ready_w :
    (attach (w0a true) 0 {}).pending = (w0a true).pending
      ∧ (googleMapsInitW (w0a true)).pending = (w0a true).pending :=
  ⟨pending_grows_only_before_ready.1 (w0a true) 0 {} rfl,
   pending_grows_only_before_ready.2 (w0a true)⟩

lemma applyCommand_instance_noop (w : World) (e : Nat) :
    applyCommand w e "instance" = w := by
  simp only [applyCommand]
  split
  · rfl
  · split
    · rfl
    · rfl

/-- C6 (code bug, evaluation at the failing input): invoking the public
entry point with the 'instance' argument on a one-element collection whose
element holds a stored instance does not return that instance: the source
tests `_this.options === 'instance'` — a property the jQuery collection
does not have — instead of the `options` argument, so the retrieval branch
is unreachable, the string falls through the command switch as an unknown
command, and the call returns the collection for chaining with no effect. -/
theorem instance_mode_returns_collection :
    ∀ (w : World) (e : Nat),
      fnGoogleMaps w { elems := [e] } (PluginArg.cmd "instance")
        = (FnResult.chain { elems := [e] }, w) := by
  intro w e
  simp only [fnGoogleMaps, elemApply, List.foldl_cons, List.foldl_nil]
  rw [applyCommand_instance_noop]
  rfl

/-- C9 (corrected, counterexample): the claim says `remove()` writes back
exactly the style attribute captured at construction, byte-for-byte.  It
fails when the element had no style attribute at construction: the saved
`_styles` is then undefined, `wrap.attr('style', undefined)` is a getter
and writes nothing, so a style the element has acquired since (here
"position: relative;") is left in place instead of being removed — the
result differs from the element as captured (`el0`, no style attribute),
though the inner content is restored. -/
theorem remove_restores_saved_style_cex :
    Plugin.removeEl (Plugin.new el0 {})
        { style := some "position: relative;", content := "tiles" }
      = { style := some "position: relative;", content := "" }
    ∧ Plugin.removeEl (Plugin.new el0 {})
        { style := some "position: relative;", content := "tiles" }
      ≠ el0 :=
  ⟨rfl, by decide⟩

/-- C9 (amended): `remove()` always writes back the saved inner content
exactly; it writes back the saved style attribute exactly when the element
had one at construction, while with no style attribute at construction the
style write is a no-op (jQuery's attr with an undefined value is a getter)
and the element's current style is left in place — so restoration is
byte-for-byte whenever a style attribute existed at construction.  The
saved copies survive `draw()`, and the 'remove' command leaves every
element's data slot and the instance heap untouched, so state queries on
the instance remain valid afterwards. -/
theorem remove_restores_saved_state_amended :
    (∀ (p : Instance) (cur : Element),
        (Plugin.removeEl p cur).content = p.savedContent
          ∧ (p.savedStyles.isSome = true → (Plugin.removeEl p cur).style = p.savedStyles)
          ∧ (p.savedStyles = none → (Plugin.removeEl p cur).style = cur.style))
    ∧ (∀ (el : Element) (o : MapOptions) (cur : Element),
        el.style.isSome = true → Plugin.removeEl (Plugin.new el o) cur = el)
    ∧ (∀ (el : Element) (o : MapOptions),
        (Plugin.new el o).savedStyles = el.style
          ∧ (Plugin.new el o).savedContent = el.content)
    ∧ (∀ inst : Instance,
        (Plugin.draw inst).savedStyles = inst.savedStyles
          ∧ (Plugin.draw inst).savedContent = inst.savedContent)
    ∧ (∀ (w : World) (e : Nat),
        (applyCommand w e "remove").registry = w.registry
          ∧ (applyCommand w e "remove").heap = w.heap) := by
  refine ⟨fun p cur => ?_, fun el o cur h => ?_, fun el o => ⟨rfl, rfl⟩,
    fun inst => ⟨(draw_guardEq inst).2.2.2.2.1, (draw_guardEq inst).2.2.2.2.2⟩,
    fun w e => ?_⟩
  · rcases hs : p.savedStyles with _ | s
    · refine ⟨?_, ?_, ?_⟩
      · simp [Plugin.removeEl, jqAttrSet, hs]
      · intro hc; simp at hc
      · intro _; simp [Plugin.removeEl, jqAttrSet, hs]
    · refine ⟨?_, ?_, ?_⟩
      · simp [Plugin.removeEl, jqAttrSet, hs]
      · intro _; simp [Plugin.removeEl, jqAttrSet, hs]
      · intro hc; simp at hc
  · obtain ⟨s, hs⟩ := Option.isSome_iff_exists.mp h
    show jqAttrSet { cur with content := el.content } el.style = el
    rw [hs]
    show ({ style := some s, content := el.content } : Element) = el
    rw [← hs]
  · simp only [applyCommand]
    split
    · exact ⟨rfl, rfl⟩
    · split
      · exact ⟨rfl, rfl⟩
      · exact ⟨rfl, rfl⟩

/-- Witness for the amended C9: with no style attribute at construction
the current style survives `remove()`, and with a style attribute at
construction the element is restored byte-for-byte. -/
theorem remove_restores_saved_state_amended_w :
    (Plugin.removeEl (Plugin.new el0 {}) { style := some "a", content := "b" }).style
        = some "a"
      ∧ Plugin.removeEl (Plugin.new { style := some "c", content := "d" } {})
          { style := some "a", content := "b" }
        = { style := some "c", content := "d" } :=
  ⟨(remove_restores_saved_state_amended.1 (Plugin.new el0 {})
      { style := some "a", content := "b" }).2.2 rfl,
   remove_restores_saved_state_amended.2.1 { style := some "c", content := "d" } {}
      { style := some "a", content := "b" } rfl⟩

/-- The options of the C10 scenario: a responsive map with a zoom level. -/
def oResp : MapOptions := { responsive := true, zoom := some 5 }

/-- C10 (confirmed): neither the 'remove' nor the 'destroy' command touches
the window-resize subscription list, and concretely: construct a
responsive instance with the API ready (one draw, one fitBounds), then
destroy (resp. remove) it — the debounced resize signal still finds the
handler and runs the viewport logic (`zoom()`, hence a second `fitBounds`
plus the center/zoom steps) on the detached instance's map handle. -/
theorem resize_handler_survives_teardown :
    (∀ (w : World) (e : Nat),
        (applyCommand w e "remove").resizeHandlers = w.resizeHandlers
          ∧ (applyCommand w e "destroy").resizeHandlers = w.resizeHandlers)
    ∧ ((runW (w0a true) [WEv.attach 0 oResp, WEv.command 0 "destroy"]).registry 0 = none
        ∧ (runW (w0a true) [WEv.attach 0 oResp, WEv.command 0 "destroy"]).resizeHandlers
            = [0]
        ∧ ((stepW (runW (w0a true) [WEv.attach 0 oResp, WEv.command 0 "destroy"])
              WEv.resizeFire).heap 0).map (fun inst => inst.map?.map MapHandle.fitCount)
            = some (some 2))
    ∧ (((stepW (runW (w0a true) [WEv.attach 0 oResp, WEv.command 0 "remove"])
          WEv.resizeFire).heap 0).map (fun inst => inst.map?.map MapHandle.fitCount)
        = some (some 2)) := by
  refine ⟨fun w e => ?_, ⟨by decide, by decide, by decide⟩, by decide⟩
  constructor <;>
    · simp only [applyCommand]
      split
      · rfl
      · split
        · rfl
        · rfl

/-!  The loader invariant: the script request is issued at most once, no
request has been issued while `Plugin.loaded` is false, and once
`Plugin.loaded` is true either a request was issued or the API was already
available (so no request was needed). -/

/-- The process-wide loader invariant. -/
def LoaderInv (w : World) : Prop :=
  w.requests.length ≤ 1
    ∧ (w.loaded = false → w.requests = [])
    ∧ (w.loaded = true → w.requests.length = 1 ∨ w.apiAvailable = true)

lemma loaderInv_transport {v w : World}
    (hr : v.requests = w.requests) (hl : v.loaded = w.loaded)
    (ha : v.apiAvailable = w.apiAvailable) (h : LoaderInv w) : LoaderInv v := by
  obtain ⟨h1, h2, h3⟩ := h
  refine ⟨?_, ?_, ?_⟩
  · rw [hr]; exact h1
  · intro hc; rw [hr]; exact h2 (by rw [hl] at hc; exact hc)
  · intro hc; rw [hr, ha]; exact h3 (by rw [hl] at hc; exact hc)

lemma attach_loaderInv {w : World} (e : Nat) (o : MapOptions) (h : LoaderInv w) :
    LoaderInv (attach w e o) := by
  obtain ⟨h1, h2, h3⟩ := h
  simp only [attach]
  split
  · exact ⟨h1, h2, h3⟩
  · simp only [loadW]
    split
    · next ha =>
        obtain ⟨d1, d2, d3, -, -, -, -⟩ := drawInstW_frame _ w.nextId
        refine ⟨?_, ?_, ?_⟩
        · rw [d1]; exact h1
        · intro hc; rw [d2] at hc; exact absurd hc (by simp)
        · intro _; right; rw [d3]; exact ha
    · next ha =>
        split
        · next hl =>
            refine ⟨h1, fun hc => h2 hc, fun hc => ?_⟩
            rcases h3 hc with hx | hx
            · exact Or.inl hx
            · exact absurd hx (by simpa using ha)
        · next hl =>
            have hreq : w.requests = [] := h2 (by simpa using hl)
            refine ⟨?_, ?_, ?_⟩
            · simp [hreq]
            · intro hc; exact absurd hc (by simp)
            · intro _; left; simp [hreq]

lemma stepW_loaderInv {w : World} (ev : WEv) (h : LoaderInv w) :
    LoaderInv (stepW w ev) := by
  cases ev with
  | attach e o => exact attach_loaderInv e o h
  | command e s =>
      obtain ⟨c1, c2, c3, -⟩ := applyCommand_frame w e s
      exact loaderInv_transport c1 c2 c3 h
  | scriptLoad =>
      show LoaderInv (googleMapsInitW { w with apiAvailable := true })
      simp only [googleMapsInitW]
      split
      · exact ⟨h.1, h.2.1, fun _ => Or.inr rfl⟩
      · next l heq =>
          obtain ⟨f1, f2, f3, -⟩ := foldl_drawInstW_frame l { w with apiAvailable := true }
          refine ⟨?_, ?_, ?_⟩
          · rw [f1]; exact h.1
          · intro hc; rw [f1]; exact h.2.1 (by rw [f2] at hc; exact hc)
          · intro _; right; rw [f3]
  | resizeFire =>
      show LoaderInv (w.resizeHandlers.foldl zoomHandler w)
      obtain ⟨f1, f2, f3, -⟩ := foldl_zoomHandler_frame w.resizeHandlers w
      exact ⟨by rw [f1]; exact h.1,
        fun hc => by rw [f1]; exact h.2.1 (by rw [f2] at hc; exact hc),
        fun hc => by rw [f1, f3]; exact h.2.2 (by rw [f2] at hc; exact hc)⟩

lemma runW_loaderInv (evs : List WEv) {w : World} (h : LoaderInv w) :
    LoaderInv (runW w evs) := by
  induction evs generalizing w with
  | nil => exact h
  | cons ev rest ih => exact ih (stepW_loaderInv ev h)

/-!  Requests only grow along a run. -/

lemma drawInstW_requests (w : World) (i : Nat) :
    (drawInstW w i).requests = w.requests := (drawInstW_frame w i).1

lemma stepW_requests_mono (w : World) (ev : WEv) :
    ∃ t, (stepW w ev).requests = w.requests ++ t := by
  cases ev with
  | attach e o =>
      show ∃ t, (attach w e o).requests = w.requests ++ t
      simp only [attach]
      split
      · exact ⟨[], by simp⟩
      · simp only [loadW]
        split
        · exact ⟨[], by simp [drawInstW_requests]⟩
        · split
          · exact ⟨[], by simp⟩
          · exact ⟨[mapsUrl o.key], rfl⟩
  | command e s =>
      refine ⟨[], ?_⟩
      show (applyCommand w e s).requests = w.requests ++ []
      simp [(applyCommand_frame w e s).1]
  | scriptLoad =>
      refine ⟨[], ?_⟩
      show (googleMapsInitW { w with apiAvailable := true }).requests = w.requests ++ []
      simp only [googleMapsInitW]
      split
      · simp
      · simp [(foldl_drawInstW_frame _ _).1]
  | resizeFire =>
      refine ⟨[], ?_⟩
      show (w.resizeHandlers.foldl zoomHandler w).requests = w.requests ++ []
      simp [(foldl_zoomHandler_frame _ _).1]

lemma runW_requests_mono (evs : List WEv) (w : World) :
    ∃ t, (runW w evs).requests = w.requests ++ t := by
  induction evs generalizing w with
  | nil => exact ⟨[], by simp [runW]⟩
  | cons ev rest ih =>
      obtain ⟨t1, ht1⟩ := stepW_requests_mono w ev
      obtain ⟨t2, ht2⟩ := ih (stepW w ev)
      exact ⟨t1 ++ t2, by rw [show runW w (ev :: rest) = runW (stepW w ev) rest from rfl,
        ht2, ht1, List.append_assoc]⟩

lemma runW_append (w : World) (l1 l2 : List WEv) :
    runW w (l1 ++ l2) = runW (runW w l1) l2 := by
  simp [runW, List.foldl_append]

lemma attach_requests_fresh (w : World) (e : Nat) (o : MapOptions)
    (hr : w.registry e = none) (ha : w.apiAvailable = false) :
    (attach w e o).requests
      = if w.loaded = true then w.requests else w.requests ++ [mapsUrl o.key] := by
  simp only [attach, hr, loadW]
  split
  · next hc => rw [show w.apiAvailable = true from hc] at ha; cases ha
  · split
    · rfl
    · rfl

/-- C3 (confirmed): across every event trace from a fresh process (with
the API initially available or not), the script request is issued at most
once; and whenever some construction happens on a fresh element while the
API is unavailable, the request count at the end of the trace is exactly
one — the first such construction issues it (setting `Plugin.loaded`) and
every later construction only enqueues. -/
theorem script_request_at_most_once :
    (∀ (a : Bool) (evs : List WEv), (runW (w0a a) evs).requests.length ≤ 1)
    ∧ (∀ (a : Bool) (pre : List WEv) (e : Nat) (o : MapOptions) (post : List WEv),
        (runW (w0a a) pre).apiAvailable = false →
        (runW (w0a a) pre).registry e = none →
        (runW (w0a a) (pre ++ WEv.attach e o :: post)).requests.length = 1) := by
  have hinv0 : ∀ a : Bool, LoaderInv (w0a a) :=
    fun a => ⟨by simp [w0a], fun _ => rfl, fun hc => by simp [w0a] at hc⟩
  constructor
  · intro a evs
    exact (runW_loaderInv evs (hinv0 a)).1
  · intro a pre e o post ha hr
    have hpre : LoaderInv (runW (w0a a) pre) := runW_loaderInv pre (hinv0 a)
    have hstep : (attach (runW (w0a a) pre) e o).requests.length = 1 := by
      rw [attach_requests_fresh _ _ _ hr ha]
      rcases hl : (runW (w0a a) pre).loaded with _ | _
      · rw [if_neg (by simp [hl])]
        simp [hpre.2.1 hl]
      · rw [if_pos (by simp [hl])]
        rcases hpre.2.2 hl with hx | hx
        · exact hx
        · rw [hx] at ha; cases ha
    have hrest : runW (w0a a) (pre ++ WEv.attach e o :: post)
        = runW (attach (runW (w0a a) pre) e o) post := by
      rw [runW_append]; rfl
    rw [hrest]
    obtain ⟨t, ht⟩ := runW_requests_mono post (attach (runW (w0a a) pre) e o)
    have hinvs : LoaderInv (runW (attach (runW (w0a a) pre) e o) post) :=
      runW_loaderInv post (stepW_loaderInv (WEv.attach e o) hpre)
    have hge : 1 ≤ (runW (attach (runW (w0a a) pre) e o) post).requests.length := by
      rw [ht, List.length_append, hstep]
      omega
    have hle := hinvs.1
    omega

/-- Witness for C3: in a fresh process with the API unavailable, a single
construction issues the request, so the trace of just that construction
ends with exactly one issued request. -/
theorem script_request_at_most_once_w :
    (runW (w0a false) ([] ++ WEv.attach 0 {} :: [])).requests.length = 1 :=
  script_request_at_most_once.2 false [] 0 {} [] rfl rfl

/-!  C4: constructions before readiness enqueue in FIFO order, and the
completion callback draws the whole queue in that order. -/

lemma attach_fresh_eq (w : World) (e : Nat) (o : MapOptions)
    (hr : w.registry e = none) (ha : w.apiAvailable = false) :
    attach w e o =
      { heap := hupd w.heap w.nextId (Plugin.new (w.elements e) o)
        nextId := w.nextId + 1
        registry := rupd w.registry e w.nextId
        elements := w.elements
        apiAvailable := w.apiAvailable
        loaded := true
        pending := some ((w.pending.getD []) ++ [w.nextId])
        requests := if w.loaded = true then w.requests else w.requests ++ [mapsUrl o.key]
        drawnLog := w.drawnLog
        resizeHandlers := w.resizeHandlers } := by
  simp only [attach, hr, loadW, ha, Bool.false_eq_true, if_false]
  split
  · next hl => simp [hl]
  · next hl => simp [hl]

/-- The world after constructing instances on the fresh elements
`0, …, N-1` (in that order) while the API is unavailable. -/
def AttachedN (os : Nat → MapOptions) (N : Nat) : World :=
  runW (w0a false) ((List.range N).map (fun e => WEv.attach e (os e)))

lemma attachedN_spec (os : Nat → MapOptions) (N : Nat) :
    (AttachedN os N).apiAvailable = false
      ∧ (AttachedN os N).nextId = N
      ∧ (AttachedN os N).pending = (if N = 0 then none else some (List.range N))
      ∧ (AttachedN os N).drawnLog = []
      ∧ (AttachedN os N).loaded = (if N = 0 then false else true)
      ∧ (AttachedN os N).elements = (fun _ => el0)
      ∧ (∀ i : Nat, (AttachedN os N).heap i
            = if i < N then some (Plugin.new el0 (os i)) else none)
      ∧ (∀ e : Nat, (AttachedN os N).registry e = if e < N then some e else none) := by
  induction N with
  | zero =>
      exact ⟨rfl, rfl, rfl, rfl, rfl, rfl, fun i => by simp [AttachedN, runW, w0a],
        fun e => by simp [AttachedN, runW, w0a]⟩
  | succ N ih =>
      obtain ⟨ha, hn, hp, hd, hl, hel, hh, hreg⟩ := ih
      have hstep : AttachedN os (N + 1) = attach (AttachedN os N) N (os N) := by
        unfold AttachedN
        rw [List.range_succ, List.map_append, runW_append]
        rfl
      have hregN : (AttachedN os N).registry N = none := by
        rw [hreg]; simp
      have he : (AttachedN os N).elements N = el0 := by rw [hel]
      rw [hstep, attach_fresh_eq _ _ _ hregN ha]
      refine ⟨ha, by simp [hn], ?_, hd, by simp, hel, ?_, ?_⟩
      · rw [hp, hn]
        by_cases hN : N = 0
        · subst hN; simp [List.range_succ]
        · simp [hN, List.range_succ]
      · intro i
        by_cases hiN : i = N
        · subst hiN
          simp [hupd, hn, he]
        · by_cases hlt : i < N
          · simp [hupd, hn, hiN, hh i, hlt, Nat.lt_succ_of_lt hlt]
          · have hlt2 : ¬ i < N + 1 := by omega
            simp [hupd, hn, hiN, hh i, hlt, hlt2]
      · intro e
        by_cases heN : e = N
        · subst heN
          simp [rupd, hn]
        · by_cases hlt : e < N
          · simp [rupd, hn, heN, hreg e, hlt, Nat.lt_succ_of_lt hlt]
          · have hlt2 : ¬ e < N + 1 := by omega
            simp [rupd, hn, heN, hreg e, hlt, hlt2]

lemma foldl_drawInstW_drawnLog (ids : List Nat) (w : World)
    (hh : ∀ i ∈ ids, (w.heap i).isSome = true) :
    (ids.foldl drawInstW w).drawnLog = w.drawnLog ++ ids := by
  induction ids generalizing w with
  | nil => simp
  | cons i rest ih =>
      obtain ⟨inst, hinst⟩ := Option.isSome_iff_exists.mp (hh i (by simp))
      have hdl : (drawInstW w i).drawnLog = w.drawnLog ++ [i] := by
        simp only [drawInstW, hinst]
        split <;> rfl
      have hhp : ∀ j ∈ rest, ((drawInstW w i).heap j).isSome = true := by
        intro j hj
        have hj2 : (drawInstW w i).heap j = hupd w.heap i (Plugin.draw inst) j := by
          simp only [drawInstW, hinst]
          split <;> rfl
        rw [hj2]
        unfold hupd
        by_cases hji : j = i
        · simp [hji]
        · rw [if_neg hji]
          exact hh j (List.mem_cons_of_mem _ hj)
      calc (List.foldl drawInstW w (i :: rest)).drawnLog
          = (List.foldl drawInstW (drawInstW w i) rest).drawnLog := by
            rw [List.foldl_cons]
        _ = (drawInstW w i).drawnLog ++ rest := ih _ hhp
        _ = w.drawnLog ++ (i :: rest) := by
            rw [hdl, List.append_assoc]; rfl

/-- C4 (confirmed): constructing N instances (on distinct fresh elements,
in order) while the API is unavailable and then running the load-completion
callback draws each of the N instances exactly once, in construction
(FIFO enqueue) order; and the callback is a no-op when the pending list is
undefined or empty. -/
theorem pending_drained_fifo :
    (∀ (N : Nat) (os : Nat → MapOptions),
        (runW (w0a false)
            (((List.range N).map (fun e => WEv.attach e (os e)))
              ++ [WEv.scriptLoad])).drawnLog
          = List.range N)
    ∧ (∀ w : World, w.pending = none → googleMapsInitW w = w)
    ∧ (∀ w : World, w.pending = some [] → googleMapsInitW w = w) := by
  refine ⟨?_, ?_, ?_⟩
  · intro N os
    rw [runW_append]
    obtain ⟨ha, hn, hp, hd, hl, hel, hh, hreg⟩ := attachedN_spec os N
    show (googleMapsInitW { AttachedN os N with apiAvailable := true }).drawnLog
        = List.range N
    by_cases hN : N = 0
    · subst hN
      have hp0 : (AttachedN os 0).pending = none := hp
      simp only [googleMapsInitW, hp0]
      exact hd
    · have hpS : (AttachedN os N).pending = some (List.range N) := by
        rw [hp, if_neg hN]
      simp only [googleMapsInitW, hpS]
      rw [foldl_drawInstW_drawnLog]
      · show (AttachedN os N).drawnLog ++ List.range N = List.range N
        rw [hd]; rfl
      · intro i hi
        show ((AttachedN os N).heap i).isSome = true
        rw [hh i, if_pos (List.mem_range.mp hi)]
        rfl
  · intro w hw
    simp [googleMapsInitW, hw]
  · intro w hw
    simp [googleMapsInitW, hw]

/-- Witness for C4: two constructions before readiness followed by the
completion callback draw instances 0 then 1, and the callback is a no-op
on a fresh world with no pending list. -/
theorem pending_drained_fifo_w :
    (runW (w0a false) [WEv.attach 0 {}, WEv.attach 1 {}, WEv.scriptLoad]).drawnLog = [0, 1]
      ∧ googleMapsInitW (w0a false) = w0a false :=
  ⟨pending_drained_fifo.1 2 (fun _ => {}), pending_drained_fifo.2.1 (w0a false) rfl⟩
